import Mathlib

/-!
Verification of the `mypipy` pipe-flow analysis application.

The Python sources `analysis_app/data_tables.py` and
`analysis_app/fluid_mechanics.py` are shallowly embedded below.  Lookup
tables and pure rational arithmetic are embedded over `ℚ`; the numerical
engine (which manipulates real-valued quantities through `sqrt`, `log10`
and `x ** 0.9`) is embedded over `ℝ`.  The calls to
`scipy.optimize.root_scalar` are modelled by abstract strategy functions:
each such function receives exactly the data the Python call passes
(the residual's parameters and the seeds) and returns either `none`
(the call raised and the exception was swallowed by the enclosing
`try/except`) or `some (converged, root)` (the `sol.converged` flag and
`sol.root`).  Theorems about the surrounding control flow are proved for
every choice of strategy functions.
-/

namespace Mypipy

/-! ## data_tables.py -/

/-- Model of Python `str.lower` on a single character, covering the ASCII
letters together with the accented capitals that occur in the tables. -/
def pyCharLower (c : Char) : Char :=
  if 'A' ≤ c ∧ c ≤ 'Z' then Char.ofNat (c.toNat + 32)
  else if c = 'Á' then 'á'
  else if c = 'É' then 'é'
  else if c = 'Í' then 'í'
  else if c = 'Ó' then 'ó'
  else if c = 'Ú' then 'ú'
  else if c = 'Ñ' then 'ñ'
  else c

/-- Model of Python `s.lower().strip()` (the normalisation applied by
`get_minor_loss_k`), working on the character list of `s`: lowercase every
character, then drop whitespace from both ends. -/
def pyLowerStrip (s : String) : List Char :=
  (((s.data.map pyCharLower).dropWhile Char.isWhitespace).reverse.dropWhile
    Char.isWhitespace).reverse

/-- `CONVERSION_M_TO_FT = 3.28084` from `data_tables.py`. -/
def CONVERSION_M_TO_FT : ℚ := 3.28084

/-- The table `PIPE_DIAMETERS_M` from `data_tables.py`: internal diameters
in metres, keyed by `(nominal, schedule)`. -/
def PIPE_DIAMETERS_M : List ((ℚ × ℤ) × ℚ) :=
  [((0.125, 40), 0.0068),
   ((0.25, 40), 0.0092),
   ((0.375, 40), 0.0125),
   ((0.5, 40), 0.0158),
   ((0.75, 40), 0.0209),
   ((1, 40), 0.0266),
   ((1.25, 40), 0.0351),
   ((1.5, 40), 0.0409),
   ((2, 40), 0.0525),
   ((2.5, 40), 0.0627),
   ((3, 40), 0.0779),
   ((3.5, 40), 0.0901),
   ((4, 40), 0.1023),
   ((5, 40), 0.128),
   ((6, 40), 0.154),
   ((8, 40), 0.203),
   ((10, 40), 0.255),
   ((12, 40), 0.303),
   ((14, 40), 0.333),
   ((16, 40), 0.381),
   ((18, 40), 0.429),
   ((20, 40), 0.478),
   ((24, 40), 0.575)]

/-- The keys of `PIPE_DIAMETERS_M`. -/
def pipe_table_keys : List (ℚ × ℤ) :=
  PIPE_DIAMETERS_M.map Prod.fst

/-- `get_pipe_diameter` from `data_tables.py`.  A table hit yields the
diameter in metres; a miss interprets `nominal` itself as the diameter in
the caller's base unit (metres for SI, feet otherwise) and converts it to
metres; finally the metre figure is converted to the caller's unit. -/
def get_pipe_diameter (nominal : ℚ) (schedule : ℤ) (system : String) : ℚ :=
  let found := (PIPE_DIAMETERS_M.find? (fun kv => kv.1 = (nominal, schedule))).map Prod.snd
  let diameter_m :=
    match found with
    | some d => d
    | none => if system = "SI" then nominal else nominal / CONVERSION_M_TO_FT
  if system = "SI" then diameter_m else diameter_m * CONVERSION_M_TO_FT

/-- The table `MINOR_LOSS_COEFFICIENTS` from `data_tables.py`, with its
keys spelled exactly as in the source (title case, accents included). -/
def MINOR_LOSS_COEFFICIENTS : List (String × ℚ) :=
  [("Rejilla de Entrada", 0.80),
   ("Válvula de Pie", 3.00),
   ("Entrada Cuadrada", 0.50),
   ("Entrada Abocinada", 0.10),
   ("Entrada de Borda o Reentrada", 1.00),
   ("Ampliación Gradual", 0.30),
   ("Ampliación Brusca", 0.20),
   ("Reducción Gradual", 0.25),
   ("Reducción Brusca", 0.35),
   ("Codo Corto 90°", 0.90),
   ("Codo Corto 45°", 0.40),
   ("Codo Largo 90°", 0.40),
   ("Codo Largo 45°", 0.20),
   ("Codo Largo 22°30\x27", 0.10),
   ("Tee Flujo Recto", 0.10),
   ("Tee Flujo en Ángulo", 1.50),
   ("Tee Salida Bilateral", 1.80),
   ("Válvula de Compuerta Abierta", 5.00),
   ("Válvula de Ángulo Abierta", 5.00),
   ("Válvula de Globo Abierta", 10.0),
   ("Válvula Alfalfera", 2.00),
   ("Válvula de Retención", 2.50),
   ("Boquilla", 2.75),
   ("Controlador de Gasto", 2.50),
   ("Medidor Venturi", 2.50),
   ("Confluencia", 0.40),
   ("Bifurcación", 0.10),
   ("Pequeña Derivación", 0.03),
   ("Válvula de Mariposa Abierta", 0.24)]

/-- `get_minor_loss_k` from `data_tables.py`: look the accessory name up
after `lower().strip()` normalisation, defaulting to `0.0`.  Key equality
is compared on character lists. -/
def get_minor_loss_k (componente : String) : ℚ :=
  ((MINOR_LOSS_COEFFICIENTS.find?
      (fun kv => kv.1.data = pyLowerStrip componente)).map Prod.snd).getD 0

/-! ## fluid_mechanics.py -/

/-- `reynolds_number` from `fluid_mechanics.py`: `Re = V·D/ν`, returning
`0` on any non-positive input. -/
noncomputable def reynolds_number (V D nu : ℝ) : ℝ :=
  if V ≤ 0 ∨ D ≤ 0 ∨ nu ≤ 0 then 0 else V * D / nu

/-- The residual `colebrook_equation` closed over in
`colebrook_white_friction_factor`: a large sentinel `1e6` for `f ≤ 0`,
otherwise `1/√f + 2·log10(ε/D/3.7 + 2.51/(Re·√f))`. -/
noncomputable def colebrook_equation (Re epsilon_D f : ℝ) : ℝ :=
  if f ≤ 0 then 1e6
  else 1 / Real.sqrt f +
    2 * Real.logb 10 (epsilon_D / 3.7 + 2.51 / (Re * Real.sqrt f))

/-- The Swamee-Jain explicit estimate
`f_guess = 0.25 / (log10(ε/D/3.7 + 5.74/Re^0.9))²` computed at the top of
the turbulent branch.  (In the Python source this expression is wrapped in
a `try/except` with constant fallback `0.02`; over `ℝ` the expression is
total, with `Real.logb` taking its junk value on non-positive arguments.) -/
noncomputable def swamee_jain_guess (Re epsilon_D : ℝ) : ℝ :=
  0.25 / (Real.logb 10 (epsilon_D / 3.7 + 5.74 / Re ^ (0.9 : ℝ))) ^ 2

/-- First secant seed of the turbulent branch: `x0 = max(1e-6, f_guess * 0.8)`. -/
noncomputable def secant_x0 (f_guess : ℝ) : ℝ :=
  max 1e-6 (f_guess * 0.8)

/-- Second secant seed of the turbulent branch: `x1 = min(0.5, f_guess * 1.2)`. -/
noncomputable def secant_x1 (f_guess : ℝ) : ℝ :=
  min 0.5 (f_guess * 1.2)

/-- Abstract model of the three `scipy.optimize.root_scalar` invocations
of `colebrook_white_friction_factor`.  Each field receives `(Re, ε/D)`
(which determine the residual being solved) together with the seeds the
Python call passes, and returns `none` when the call raised (the
exception being swallowed by the enclosing `try/except`) or
`some (sol.converged, sol.root)`. -/
structure RootScalar where
  brentq : ℝ → ℝ → ℝ → ℝ → Option (Bool × ℝ)
  secant : ℝ → ℝ → ℝ → ℝ → Option (Bool × ℝ)
  newton : ℝ → ℝ → ℝ → Option (Bool × ℝ)

/-- The acceptance test applied to every `root_scalar` outcome:
`if sol.converged and sol.root > 0: return sol.root`, anything else
(including a raised exception) falls through to the next strategy. -/
noncomputable def accept : Option (Bool × ℝ) → Option ℝ
  | some (c, r) => if c = true ∧ 0 < r then some r else none
  | none => none

/-- The early-return control flow of the strategy chains: the first of the
three attempts to have produced an accepted root wins. -/
def first_root : Option ℝ → Option ℝ → Option ℝ → Option ℝ
  | some r, _, _ => some r
  | none, some r, _ => some r
  | none, none, t3 => t3

/-- `colebrook_white_friction_factor` from `fluid_mechanics.py`, paired
with the emitted-warning flag: `(0, warning)` for `Re ≤ 0`; the exact
laminar value `64/Re` for `Re < 2000`; otherwise the ordered fallback
chain brentq (only on a sign change of the residual across
`[1e-6, 0.1]`), secant (seeded at `max(1e-6, 0.8·f_guess)` and
`min(0.5, 1.2·f_guess)`), newton (seeded at `f_guess`), and finally the
Swamee-Jain estimate itself together with a non-convergence warning. -/
noncomputable def colebrook_white_friction_factor (rs : RootScalar)
    (Re epsilon_D : ℝ) : ℝ × Bool :=
  if Re ≤ 0 then (0, true)
  else if Re < 2000 then (64 / Re, false)
  else
    let f_guess := swamee_jain_guess Re epsilon_D
    let try1 : Option ℝ :=
      if Real.sign (colebrook_equation Re epsilon_D 1e-6) ≠
          Real.sign (colebrook_equation Re epsilon_D 0.1) then
        accept (rs.brentq Re epsilon_D 1e-6 0.1)
      else none
    let try2 : Option ℝ :=
      accept (rs.secant Re epsilon_D (secant_x0 f_guess) (secant_x1 f_guess))
    let try3 : Option ℝ := accept (rs.newton Re epsilon_D f_guess)
    match first_root try1 try2 try3 with
    | some f => (f, false)
    | none => (f_guess, true)

/-- `total_head_loss` from `fluid_mechanics.py`:
`hL = f·(L/D)·V²/(2g) + ΣK·V²/(2g)`, returning `0` when `D ≤ 0` or `g ≤ 0`. -/
noncomputable def total_head_loss (f L D V sum_K g : ℝ) : ℝ :=
  if D ≤ 0 ∨ g ≤ 0 then 0
  else
    let velocity_head := V ^ 2 / (2 * g)
    f * (L / D) * velocity_head + sum_K * velocity_head

/-- `pumping_power` from `fluid_mechanics.py`: a `ValueError` for
`efficiency ≤ 0`; otherwise `Q·ΔP/η` for the SI system and
`(Q·ΔP/550)/η` for any other system. -/
noncomputable def pumping_power (Q delta_P : ℝ) (system : String)
    (efficiency : ℝ) : Except String ℝ :=
  if efficiency ≤ 0 then
    .error "La eficiencia debe ser positiva y mayor que 0."
  else
    let power_brute := Q * delta_P
    if system = "SI" then .ok (power_brute / efficiency)
    else .ok (power_brute / 550 / efficiency)

/-- `energy_equation_for_V` from `fluid_mechanics.py`:
`F(V) = hL(V) − ((P1−P2)/(ρg) + (z1−z2))`, with the sentinel `1e10` for
`V ≤ 0` or `D = 0`.  (`material_epsilon` is always a number in the
embedding, so the `is not None` branch is taken.) -/
noncomputable def energy_equation_for_V (rs : RootScalar)
    (V P1 P2 z1 z2 L D rho nu sum_K g material_epsilon : ℝ) : ℝ :=
  if V ≤ 0 then 1e10
  else
    let Re := reynolds_number V D nu
    if D = 0 then 1e10
    else
      let epsilon_D := material_epsilon / D
      let f := (colebrook_white_friction_factor rs Re epsilon_D).1
      let hL := total_head_loss f L D V sum_K g
      let delta_z_p := (P1 - P2) / (rho * g) + (z1 - z2)
      hL - delta_z_p

/-- Abstract model of the three `root_scalar` invocations of
`solve_velocity` (brentq on a bracket, secant on two seeds, newton on one
seed), in the same style as `RootScalar`.  The residual solved is the
closure `F` over all other arguments of `solve_velocity`, which are in
scope at every use, so the fields receive only the seeds. -/
structure VRootScalar where
  brentq : ℝ → ℝ → Option (Bool × ℝ)
  secant : ℝ → ℝ → Option (Bool × ℝ)
  newton : ℝ → Option (Bool × ℝ)

/-- The two return forms of `solve_velocity`: a found root `V` becomes
the success pair `(V, Q = V·Area)` with no warning, and exhaustion of the
strategy chain becomes the no-solution sentinel `(None, None)` together
with the non-convergence warning. -/
noncomputable def pack_velocity (Area : ℝ) : Option ℝ → Option (ℝ × ℝ) × Bool
  | some V => (some (V, V * Area), false)
  | none => (none, true)

/-- `solve_velocity` from `fluid_mechanics.py`, paired with the
emitted-warning flag.  Strategies in order: brentq on `[V_min, V_max]`
when `F` changes sign across it; secant seeded around the analytic
estimate `V_est = √(2gΔ)` (bracket midpoint when `Δ ≤ 0`), clamped into
`[V_min, V_max]`; newton at the bracket midpoint.  The first outcome that
converges to a positive root yields `(some (V, V·Area), no-warning)`;
otherwise the no-solution result `(none, warning)`. -/
noncomputable def solve_velocity (rs : RootScalar) (vs : VRootScalar)
    (P1 P2 z1 z2 L D rho nu sum_K g material_epsilon V_min V_max : ℝ) :
    Option (ℝ × ℝ) × Bool :=
  let Area := Real.pi * D ^ 2 / 4
  let F := fun V =>
    energy_equation_for_V rs V P1 P2 z1 z2 L D rho nu sum_K g material_epsilon
  let try1 : Option ℝ :=
    if Real.sign (F V_min) ≠ Real.sign (F V_max) then
      accept (vs.brentq V_min V_max)
    else none
  let delta_z_p := (P1 - P2) / (rho * g) + (z1 - z2)
  let V_est :=
    if 0 < delta_z_p then Real.sqrt (2 * g * delta_z_p)
    else (V_min + V_max) / 2
  let try2 : Option ℝ :=
    accept (vs.secant (max V_min (V_est * 0.5)) (min V_max (V_est * 1.5)))
  let try3 : Option ℝ := accept (vs.newton ((V_min + V_max) / 2))
  pack_velocity Area (first_root try1 try2 try3)

/-- `np.linspace(a, b, n)`: the `n` evenly spaced samples
`a + i·(b−a)/(n−1)`, endpoints included.  (For `n = 1` the `i = 0` sample
degenerates to `a`, matching `np.linspace(a, b, 1) = [a]`.) -/
noncomputable def linspace (a b : ℝ) (n : ℕ) : List ℝ :=
  (List.range n).map (fun i : ℕ => a + (i : ℝ) * (b - a) / ((n : ℝ) - 1))

/-- The body of the sampling loop of `generate_hl_vs_v_data`: recompute
`Re`, `ε/D`, `f` and `hL` from scratch at the sample velocity `V`. -/
noncomputable def sample_hl (rs : RootScalar)
    (L D nu sum_K g material_epsilon V : ℝ) : ℝ :=
  let Re := reynolds_number V D nu
  let epsilon_D := if D ≠ 0 then material_epsilon / D else 0
  let f := (colebrook_white_friction_factor rs Re epsilon_D).1
  total_head_loss f L D V sum_K g

/-- `generate_hl_vs_v_data` from `fluid_mechanics.py`: a `ValueError` for
`steps ≤ 0`, otherwise the loop over `np.linspace(V_min, V_max, steps)`
accumulating `(V, hL)` pairs and skipping samples with `V ≤ 0`. -/
noncomputable def generate_hl_vs_v_data (rs : RootScalar)
    (V_min V_max : ℝ) (steps : ℤ)
    (L D nu sum_K g material_epsilon : ℝ) : Except String (List (ℝ × ℝ)) :=
  if steps ≤ 0 then .error "steps debe ser un entero positivo."
  else
    .ok ((linspace V_min V_max steps.toNat).foldl
      (fun data V =>
        if V ≤ 0 then data
        else data ++ [(V, sample_hl rs L D nu sum_K g material_epsilon V)])
      [])

/-- A `RootScalar` whose every invocation raises: used to instantiate
witnesses on code paths that never consult a root-finding strategy. -/
def noStrategies : RootScalar :=
  ⟨fun _ _ _ _ => none, fun _ _ _ _ => none, fun _ _ _ => none⟩

/-! ## Helper lemmas -/

/-- Any root emitted by the acceptance test is strictly positive. -/
lemma accept_pos {o : Option (Bool × ℝ)} {r : ℝ} (h : accept o = some r) :
    0 < r := by
  match o with
  | none => simp [accept] at h
  | some (c, x) =>
    by_cases hcx : c = true ∧ 0 < x
    · have hx : some x = some r := by simpa [accept, hcx] using h
      cases hx
      exact hcx.2
    · simp [accept, hcx] at h

/-- A guarded acceptance test (strategy 1, run only on a sign change)
also only emits strictly positive roots. -/
lemma ite_accept_pos {c : Prop} [Decidable c] {o : Option (Bool × ℝ)}
    {r : ℝ} (h : (if c then accept o else none) = some r) : 0 < r := by
  split at h
  · exact accept_pos h
  · simp at h

/-- `first_root` emits one of its arguments. -/
lemma first_root_eq {t1 t2 t3 : Option ℝ} {r : ℝ}
    (h : first_root t1 t2 t3 = some r) :
    t1 = some r ∨ t2 = some r ∨ t3 = some r := by
  match t1, t2, t3 with
  | some x, _, _ => cases h; exact Or.inl rfl
  | none, some x, _ => cases h; exact Or.inr (Or.inl rfl)
  | none, none, t3 => exact Or.inr (Or.inr h)

/-! ## Claim theorems -/

/-- C3: in the laminar regime `0 < Re < 2000` the friction-factor solver
returns exactly `64/Re`, with no warning and independently of every
root-finding strategy (so no iterative solving takes place). -/
theorem colebrook_laminar_exact (rs : RootScalar) (Re epsilon_D : ℝ)
    (h0 : 0 < Re) (h2 : Re < 2000) :
    colebrook_white_friction_factor rs Re epsilon_D = (64 / Re, false) := by
  unfold colebrook_white_friction_factor
  rw [if_neg (not_le.mpr h0), if_pos h2]

/-- C3 witness: `Re = 1000` is laminar and yields `f = 0.064` exactly. -/
theorem colebrook_laminar_exact_witness :
    0 < (1000 : ℝ) ∧ (1000 : ℝ) < 2000 ∧
      colebrook_white_friction_factor noStrategies 1000 0 = (0.064, false) :=
  ⟨by norm_num, by norm_num, by
    rw [colebrook_laminar_exact noStrategies 1000 0 (by norm_num) (by norm_num)]
    norm_num⟩

/-- C8: for `Re ≤ 0` the friction-factor solver returns `f = 0` together
with the invalid-Reynolds warning flag (a return value, not a raised
error), for every root-finding strategy. -/
theorem colebrook_invalid_reynolds (rs : RootScalar) (Re epsilon_D : ℝ)
    (h : Re ≤ 0) :
    colebrook_white_friction_factor rs Re epsilon_D = (0, true) := by
  unfold colebrook_white_friction_factor
  rw [if_pos h]

/-- C8 witness: `Re = -1` yields `f = 0` with the warning flag set. -/
theorem colebrook_invalid_reynolds_witness :
    (-1 : ℝ) ≤ 0 ∧
      colebrook_white_friction_factor noStrategies (-1) 0.01 = (0, true) :=
  ⟨by norm_num, colebrook_invalid_reynolds noStrategies (-1) 0.01 (by norm_num)⟩

/-- C4 counterexample: at `Re = 59049 ≥ 2000` and (non-negative) relative
roughness `c4_epsD`, the Swamee-Jain guess is exactly `0.25`, so the first
secant seed is `max(1e-6, 0.8·0.25) = 0.2`, which lies outside the
bracket `[1e-6, 0.1]` — refuting the claim that both seeds are clamped
into the bracket bounds. -/
noncomputable def c4_epsD : ℝ := 3.7 * (1 / 10 - 5.74 / 19683)

/-- C4 counterexample (see `c4_epsD`). -/
theorem secant_seed_outside_bracket :
    2000 ≤ (59049 : ℝ) ∧ 0 ≤ c4_epsD ∧
      swamee_jain_guess 59049 c4_epsD = 0.25 ∧
      0.1 < secant_x0 (swamee_jain_guess 59049 c4_epsD) := by
  have hre : (59049 : ℝ) ^ (0.9 : ℝ) = 19683 := by
    have h1 : (59049 : ℝ) = 3 ^ (10 : ℕ) := by norm_num
    have h2 : ((3 : ℝ) ^ (10 : ℕ)) = (3 : ℝ) ^ ((10 : ℕ) : ℝ) :=
      (Real.rpow_natCast 3 10).symm
    rw [h1, h2, ← Real.rpow_mul (by norm_num : (0 : ℝ) ≤ 3)]
    have h3 : ((10 : ℕ) : ℝ) * (0.9 : ℝ) = ((9 : ℕ) : ℝ) := by norm_num
    rw [h3, Real.rpow_natCast]
    norm_num
  have harg : c4_epsD / 3.7 + 5.74 / (59049 : ℝ) ^ (0.9 : ℝ) = 1 / 10 := by
    rw [hre]
    unfold c4_epsD
    norm_num
  have hguess : swamee_jain_guess 59049 c4_epsD = 0.25 := by
    unfold swamee_jain_guess
    rw [harg, show (1 / 10 : ℝ) = (10 : ℝ)⁻¹ by norm_num, Real.logb_inv,
      Real.logb_self_eq_one (by norm_num)]
    norm_num
  refine ⟨by norm_num, by unfold c4_epsD; norm_num, hguess, ?_⟩
  rw [hguess]
  unfold secant_x0
  rw [show (0.25 : ℝ) * 0.8 = 0.2 by norm_num]
  exact lt_max_iff.mpr (Or.inr (by norm_num))

/-- C4 (amended): the two secant seeds of the turbulent branch are
`max(1e-6, 0.8·f_guess)` and `min(0.5, 1.2·f_guess)`: the lower seed is
clamped below at the bracket's lower bound `1e-6` (with no upper clamp)
and the upper seed is clamped above at `0.5` (not at the bracket's upper
bound `0.1`); hence `x0 ≥ 1e-6` and `x1 ≤ 0.5` always hold, but the seeds
need not lie in `[1e-6, 0.1]`. -/
theorem secant_seeds_clamped (f_guess : ℝ) :
    1e-6 ≤ secant_x0 f_guess ∧ secant_x1 f_guess ≤ 0.5 :=
  ⟨le_max_left _ _, min_le_left _ _⟩

/-- C5: `pumping_power` fails with the efficiency-domain error exactly
when `efficiency ≤ 0`; for positive efficiency it returns `Q·ΔP/η` in the
SI system and `(Q·ΔP/550)/η` (the division by `550` applied first) in any
other system. -/
theorem pumping_power_spec (Q delta_P : ℝ) (system : String)
    (efficiency : ℝ) :
    ((∃ msg, pumping_power Q delta_P system efficiency = .error msg) ↔
        efficiency ≤ 0) ∧
      (0 < efficiency → system = "SI" →
        pumping_power Q delta_P system efficiency =
          .ok (Q * delta_P / efficiency)) ∧
      (0 < efficiency → system ≠ "SI" →
        pumping_power Q delta_P system efficiency =
          .ok (Q * delta_P / 550 / efficiency)) := by
  unfold pumping_power
  by_cases he : efficiency ≤ 0
  · refine ⟨⟨fun _ => he, fun _ => ⟨_, if_pos he⟩⟩, ?_, ?_⟩ <;>
      · intro hpos
        exact absurd hpos (not_lt.mpr he)
  · by_cases hs : system = "SI" <;> simp [he, hs]

/-- C5 witness: at efficiency `2 > 0` the SI and non-SI results take the
stated forms. -/
theorem pumping_power_spec_witness :
    0 < (2 : ℝ) ∧
      pumping_power 3 5 "SI" 2 = .ok (3 * 5 / 2) ∧
      pumping_power 3 5 "EN" 2 = .ok (3 * 5 / 550 / 2) :=
  ⟨by norm_num, (pumping_power_spec 3 5 "SI" 2).2.1 (by norm_num) rfl,
    (pumping_power_spec 3 5 "EN" 2).2.2 (by norm_num) (by simp)⟩

/-- C7 counterexample: the claim allows `f = 0` and `ΣK = 0`, but then
the head loss is identically `0`, hence not strictly increasing in `V`
(here `hL(1) = hL(2) = 0` with `L = D = g = 1`). -/
theorem total_head_loss_not_strict :
    total_head_loss 0 1 1 1 0 1 = 0 ∧ total_head_loss 0 1 1 2 0 1 = 0 ∧
      ¬ total_head_loss 0 1 1 1 0 1 < total_head_loss 0 1 1 2 0 1 := by
  have h1 : total_head_loss 0 1 1 1 0 1 = 0 := by
    simp [total_head_loss]
  have h2 : total_head_loss 0 1 1 2 0 1 = 0 := by
    simp [total_head_loss]
  exact ⟨h1, h2, by rw [h1, h2]; exact lt_irrefl 0⟩

/-- C7 (amended): for fixed `f ≥ 0`, `L > 0`, `D > 0`, `ΣK ≥ 0`, `g > 0`
with at least one of `f`, `ΣK` strictly positive (which every physical
friction regime provides), `total_head_loss` is strictly increasing in
`V` over `V > 0`. -/
theorem total_head_loss_strict_mono (f L D sum_K g V1 V2 : ℝ)
    (hf : 0 ≤ f) (hL : 0 < L) (hD : 0 < D) (hK : 0 ≤ sum_K) (hg : 0 < g)
    (hpos : 0 < f ∨ 0 < sum_K) (h1 : 0 < V1) (h12 : V1 < V2) :
    total_head_loss f L D V1 sum_K g < total_head_loss f L D V2 sum_K g := by
  have hcond : ¬ (D ≤ 0 ∨ g ≤ 0) := by
    push_neg
    exact ⟨hD, hg⟩
  have hcoef : 0 < f * (L / D) + sum_K := by
    rcases hpos with hfp | hKp
    · have : 0 < f * (L / D) := mul_pos hfp (div_pos hL hD)
      linarith
    · have : 0 ≤ f * (L / D) := mul_nonneg hf (div_nonneg hL.le hD.le)
      linarith
  have h2g : (0 : ℝ) < 2 * g := by linarith
  have hsq : V1 ^ 2 < V2 ^ 2 := by nlinarith
  have hdiv : V1 ^ 2 / (2 * g) < V2 ^ 2 / (2 * g) :=
    (div_lt_div_iff_of_pos_right h2g).mpr hsq
  simp only [total_head_loss, if_neg hcond]
  calc f * (L / D) * (V1 ^ 2 / (2 * g)) + sum_K * (V1 ^ 2 / (2 * g))
      = (f * (L / D) + sum_K) * (V1 ^ 2 / (2 * g)) := by ring
    _ < (f * (L / D) + sum_K) * (V2 ^ 2 / (2 * g)) :=
        mul_lt_mul_of_pos_left hdiv hcoef
    _ = f * (L / D) * (V2 ^ 2 / (2 * g)) + sum_K * (V2 ^ 2 / (2 * g)) := by
        ring

/-- C7 witness: with `f = 1`, `L = D = g = 1`, `ΣK = 0`, the head loss at
`V = 1` is below the head loss at `V = 2`. -/
theorem total_head_loss_strict_mono_witness :
    (0 : ℝ) ≤ 1 ∧ (0 : ℝ) < 1 ∧ (1 : ℝ) < 2 ∧
      total_head_loss 1 1 1 1 0 1 < total_head_loss 1 1 1 2 0 1 :=
  ⟨by norm_num, by norm_num, by norm_num,
    total_head_loss_strict_mono 1 1 1 0 1 1 2 (by norm_num) (by norm_num)
      (by norm_num) (by norm_num) (by norm_num) (Or.inl (by norm_num))
      (by norm_num) (by norm_num)⟩

/-- Roots surviving a strategy chain of guarded acceptance tests are
strictly positive. -/
lemma first_root_accept_pos {c : Prop} [Decidable c]
    {o1 o2 o3 : Option (Bool × ℝ)} {r : ℝ}
    (h : first_root (if c then accept o1 else none) (accept o2) (accept o3) =
      some r) : 0 < r := by
  rcases first_root_eq h with h1 | h2 | h3
  · exact ite_accept_pos h1
  · exact accept_pos h2
  · exact accept_pos h3

/-- `pack_velocity` returns either a success pair built from a positive
root, or the warned no-solution sentinel. -/
lemma pack_velocity_shape {Area : ℝ} {o : Option ℝ}
    (hp : ∀ r, o = some r → 0 < r) :
    (∃ V, 0 < V ∧ pack_velocity Area o = (some (V, V * Area), false)) ∨
      pack_velocity Area o = (none, true) := by
  cases h : o with
  | some V => exact Or.inl ⟨V, hp V h, rfl⟩
  | none => exact Or.inr rfl

/-- C6: `solve_velocity` never escalates a strategy failure: whatever
every root-finding strategy does, it either returns a success pair
`(V, Q)` with `V > 0` and `Q = V·πD²/4`, or the no-solution sentinel
together with the non-fatal diagnostic flag. -/
theorem solve_velocity_total (rs : RootScalar) (vs : VRootScalar)
    (P1 P2 z1 z2 L D rho nu sum_K g material_epsilon V_min V_max : ℝ) :
    (∃ V, 0 < V ∧
        solve_velocity rs vs P1 P2 z1 z2 L D rho nu sum_K g material_epsilon
            V_min V_max =
          (some (V, V * (Real.pi * D ^ 2 / 4)), false)) ∨
      solve_velocity rs vs P1 P2 z1 z2 L D rho nu sum_K g material_epsilon
          V_min V_max =
        (none, true) := by
  unfold solve_velocity
  exact pack_velocity_shape (fun r h => first_root_accept_pos h)

/-- The sampling loop of `generate_hl_vs_v_data` appends exactly the
samples with positive velocity, in order. -/
lemma foldl_skip_eq_filter_map (hf : ℝ → ℝ × ℝ) (l : List ℝ) :
    ∀ acc : List (ℝ × ℝ),
      l.foldl (fun data V => if V ≤ 0 then data else data ++ [hf V]) acc =
        acc ++ (l.filter (fun V => !decide (V ≤ 0))).map hf := by
  induction l with
  | nil => intro acc; simp
  | cons a l ih =>
    intro acc
    by_cases ha : a ≤ 0
    · simp only [List.foldl_cons, if_pos ha, List.filter_cons]
      rw [ih]
      simp [ha]
    · simp only [List.foldl_cons, if_neg ha, List.filter_cons]
      rw [ih]
      simp [ha, List.append_assoc]

/-- `np.linspace` samples are in ascending order when `a ≤ b`. -/
lemma linspace_pairwise_le (a b : ℝ) (n : ℕ) (hab : a ≤ b) :
    (linspace a b n).Pairwise (· ≤ ·) := by
  unfold linspace
  rcases Nat.eq_zero_or_pos n with hn | hn
  · subst hn; simp
  · have hd : 0 ≤ (b - a) / ((n : ℝ) - 1) := by
      rcases Nat.lt_or_ge n 2 with h2 | h2
      · have h1 : n = 1 := by omega
        subst h1
        simp
      · have h2r : (2 : ℝ) ≤ (n : ℝ) := by exact_mod_cast h2
        apply div_nonneg (by linarith) (by linarith)
    rw [List.pairwise_map]
    have mono : ∀ i j : ℕ, i < j →
        a + (i : ℝ) * (b - a) / ((n : ℝ) - 1) ≤
          a + (j : ℝ) * (b - a) / ((n : ℝ) - 1) := by
      intro i j hij
      have hij' : (i : ℝ) ≤ (j : ℝ) := by exact_mod_cast hij.le
      have hmul := mul_le_mul_of_nonneg_right hij' hd
      rw [mul_div_assoc, mul_div_assoc]
      linarith
    exact (List.pairwise_lt_range n).imp (fun hij => mono _ _ hij)

/-- C9: `generate_hl_vs_v_data` fails with the configuration error
exactly when `steps ≤ 0`; for `steps ≥ 1` it returns the uniform
`linspace` partition of `[V_min, V_max]` with exactly the non-positive
sample velocities skipped, each retained sample paired with its
independently recomputed head loss, and (for `V_min ≤ V_max`) in
ascending velocity order. -/
theorem generate_hl_spec (rs : RootScalar) (V_min V_max : ℝ) (steps : ℤ)
    (L D nu sum_K g material_epsilon : ℝ) :
    (steps ≤ 0 ↔
        generate_hl_vs_v_data rs V_min V_max steps L D nu sum_K g
            material_epsilon =
          .error "steps debe ser un entero positivo.") ∧
      (1 ≤ steps →
        generate_hl_vs_v_data rs V_min V_max steps L D nu sum_K g
            material_epsilon =
          .ok (((linspace V_min V_max steps.toNat).filter
              (fun V => !decide (V ≤ 0))).map
            (fun V => (V, sample_hl rs L D nu sum_K g material_epsilon V)))) ∧
      (1 ≤ steps → V_min ≤ V_max →
        ∀ l, generate_hl_vs_v_data rs V_min V_max steps L D nu sum_K g
              material_epsilon = .ok l →
          l.Pairwise (fun p q => p.1 ≤ q.1)) := by
  unfold generate_hl_vs_v_data
  by_cases hs : steps ≤ 0
  · rw [if_pos hs]
    refine ⟨⟨fun _ => rfl, fun _ => hs⟩, ?_, ?_⟩ <;> intro h1 <;> omega
  · rw [if_neg hs]
    have hchar :
        ((linspace V_min V_max steps.toNat).foldl
            (fun data V =>
              if V ≤ 0 then data
              else data ++ [(V, sample_hl rs L D nu sum_K g material_epsilon V)])
            []) =
          ((linspace V_min V_max steps.toNat).filter
              (fun V => !decide (V ≤ 0))).map
            (fun V => (V, sample_hl rs L D nu sum_K g material_epsilon V)) := by
      rw [foldl_skip_eq_filter_map]
      simp
    refine ⟨⟨fun h => absurd h hs, fun h => by cases h⟩, fun _ => by rw [hchar],
      fun _ hab l hl => ?_⟩
    have hl' : l = ((linspace V_min V_max steps.toNat).filter
        (fun V => !decide (V ≤ 0))).map
          (fun V => (V, sample_hl rs L D nu sum_K g material_epsilon V)) := by
      rw [hchar] at hl
      exact (Except.ok.inj hl).symm
    subst hl'
    refine List.pairwise_map.mpr ?_
    refine List.Pairwise.filter _ ?_
    exact linspace_pairwise_le V_min V_max steps.toNat hab

/-- C9 witness: one step over `[1, 2]` with `L = D = ν = g = 1`,
`ΣK = ε = 0` samples only `V = 1`, whose laminar head loss is
`f·(L/D)·V²/(2g) = 64·(1/2) = 32`. -/
theorem generate_hl_spec_witness :
    (1 : ℤ) ≤ 1 ∧
      generate_hl_vs_v_data noStrategies 1 2 1 1 1 1 0 1 0 = .ok [(1, 32)] := by
  refine ⟨by norm_num, ?_⟩
  have h := (generate_hl_spec noStrategies 1 2 1 1 1 1 0 1 0).2.1 (by norm_num)
  rw [h]
  have hdec : decide ((1 : ℝ) ≤ 0) = false :=
    decide_eq_false_iff_not.mpr (by norm_num)
  norm_num [linspace, List.range_succ, hdec, List.filter_cons, sample_hl,
    reynolds_number, colebrook_white_friction_factor, total_head_loss]

/-- The first table entry whose key equals `key` is found by `find?` when
the table's keys are distinct. -/
lemma find?_key_of_mem (l : List ((ℚ × ℤ) × ℚ)) (key : ℚ × ℤ) (d : ℚ)
    (hnd : (l.map Prod.fst).Nodup) (hmem : (key, d) ∈ l) :
    l.find? (fun kv => kv.1 = key) = some (key, d) := by
  induction l with
  | nil => simp at hmem
  | cons a l ih =>
    rw [List.map_cons, List.nodup_cons] at hnd
    rcases List.mem_cons.mp hmem with heq | hmem2
    · subst heq
      rw [List.find?_cons_of_pos _ (by simp)]
    · have hne : a.1 ≠ key := by
        intro hkey
        exact hnd.1 (hkey ▸ List.mem_map.mpr ⟨(key, d), hmem2, rfl⟩)
      rw [List.find?_cons_of_neg _ (by simp [hne])]
      exact ih hnd.2 hmem2

/-- C10: `get_pipe_diameter` never fails on a lookup miss — an unknown
`(nominal, schedule)` key silently makes the nominal value itself the
diameter, returned unchanged for SI and as
`(nominal / 3.28084) * 3.28084` otherwise; table hits are returned in
metres for SI and multiplied by `3.28084` otherwise. -/
theorem get_pipe_diameter_spec (nominal : ℚ) (schedule : ℤ) (system : String) :
    ((nominal, schedule) ∉ pipe_table_keys →
      get_pipe_diameter nominal schedule system =
        if system = "SI" then nominal
        else nominal / CONVERSION_M_TO_FT * CONVERSION_M_TO_FT) ∧
    (∀ d, ((nominal, schedule), d) ∈ PIPE_DIAMETERS_M →
      get_pipe_diameter nominal schedule system =
        if system = "SI" then d else d * CONVERSION_M_TO_FT) := by
  constructor
  · intro hmiss
    have hfind :
        PIPE_DIAMETERS_M.find? (fun kv => kv.1 = (nominal, schedule)) = none := by
      rw [List.find?_eq_none]
      intro kv hkv
      simp only [decide_eq_true_eq]
      intro hk
      exact hmiss (List.mem_map.mpr ⟨kv, hkv, hk⟩)
    unfold get_pipe_diameter
    rw [hfind]
    by_cases hsys : system = "SI" <;> simp [hsys]
  · intro d hmem
    have hnd : (PIPE_DIAMETERS_M.map Prod.fst).Nodup := by
      norm_num [PIPE_DIAMETERS_M]
    have hfind := find?_key_of_mem PIPE_DIAMETERS_M (nominal, schedule) d hnd hmem
    unfold get_pipe_diameter
    rw [hfind]
    by_cases hsys : system = "SI" <;> simp [hsys]

/-- C10 witness: `0.06` is not a tabulated nominal size, and is returned
as the diameter itself in both unit systems; the tabulated key `(2, 40)`
returns its `0.0525 m` entry, converted to feet for a non-SI system. -/
theorem get_pipe_diameter_spec_witness :
    ((0.06 : ℚ), (40 : ℤ)) ∉ pipe_table_keys ∧
      get_pipe_diameter 0.06 40 "SI" = 0.06 ∧
      get_pipe_diameter 0.06 40 "EN" =
        0.06 / CONVERSION_M_TO_FT * CONVERSION_M_TO_FT ∧
      (((2 : ℚ), (40 : ℤ)), (0.0525 : ℚ)) ∈ PIPE_DIAMETERS_M ∧
      get_pipe_diameter 2 40 "EN" = 0.0525 * CONVERSION_M_TO_FT := by
  have hmiss : ((0.06 : ℚ), (40 : ℤ)) ∉ pipe_table_keys := by
    norm_num [pipe_table_keys, PIPE_DIAMETERS_M]
  have hmem : (((2 : ℚ), (40 : ℤ)), (0.0525 : ℚ)) ∈ PIPE_DIAMETERS_M := by
    simp [PIPE_DIAMETERS_M]
  refine ⟨hmiss, ?_, ?_, hmem, ?_⟩
  · have h := (get_pipe_diameter_spec 0.06 40 "SI").1 hmiss
    rw [h]
    simp
  · have h := (get_pipe_diameter_spec 0.06 40 "EN").1 hmiss
    rw [h]
    simp
  · have h := (get_pipe_diameter_spec 2 40 "EN").2 0.0525 hmem
    rw [h]
    simp

/-- C1: the minor-loss table spells its keys in title case (despite the
source comment announcing lowercase keys) while `get_minor_loss_k`
lowercases and trims its argument before the lookup, so even the table's
own spelling of an accessory name — in any casing — misses and yields
`0.0` instead of the tabulated `0.80`; unknown names also yield `0.0`. -/
theorem get_minor_loss_k_always_misses :
    ("Rejilla de Entrada", (0.80 : ℚ)) ∈ MINOR_LOSS_COEFFICIENTS ∧
      get_minor_loss_k "Rejilla de Entrada" = 0 ∧
      get_minor_loss_k "REJILLA DE ENTRADA" = 0 ∧
      get_minor_loss_k "  rejilla de entrada  " = 0 ∧
      get_minor_loss_k "nonexistent valve" = 0 :=
  ⟨List.Mem.head _, by decide, by decide, by decide, by decide⟩

end Mypipy
